import Mathlib

/-!
Verification of the `gwc_mapping_stem_outcomes` dataset-join pipeline.

The repository is a linear pandas ETL pipeline
(`src/code/s01_gen_econ_performance.py`, `s02_merging_datasets.py`,
`single_map.py`, `static_maps.py`, `src/hacking/s01_cleaning.py`).
This file gives a shallow embedding of the data model and the column
operations of that pipeline and proves the specified properties about it.

Conventions of the embedding:
* A pandas numeric (float64) cell is a `PVal`: missing (`NaN`), one of the
  two infinities, or an exact rational.  The pipeline only divides and
  multiplies values produced by `pandas.to_numeric(..., errors="coerce")`,
  so the IEEE-754 cases that matter here are division by zero and
  propagation of missing values; finite arithmetic is modelled exactly
  over `ℚ`.
* A nullable integer column (pandas dtype `Int64`) cell is an `Option ℤ`.
* A column operation that can raise (for example `.astype(int)` applied to
  a column holding a missing value) returns `Option` at the column level:
  `none` models the raised exception, `some` the resulting column.
* A DataFrame is a `List` of row structures; row order is the pandas row
  order.
-/

set_option autoImplicit false

namespace GwcPipeline

/-- A pandas float64 cell after `to_numeric(..., errors="coerce")`:
missing (`NaN`), positive infinity, negative infinity, or a finite value
modelled as an exact rational. -/
inductive PVal where
  | na : PVal
  | pinf : PVal
  | ninf : PVal
  | num : ℚ → PVal
deriving DecidableEq, Repr

/-- IEEE-754-style division as pandas performs it on float64 columns:
`NaN` propagates, a finite nonzero value divided by zero gives a signed
infinity, and `0/0` gives `NaN`.  (No exception is ever raised.) -/
def pdDiv : PVal → PVal → PVal
  | PVal.na, _ => PVal.na
  | _, PVal.na => PVal.na
  | PVal.num a, PVal.num b =>
    if b = 0 then
      (if a = 0 then PVal.na else if 0 < a then PVal.pinf else PVal.ninf)
    else PVal.num (a / b)
  | PVal.num _, PVal.pinf => PVal.num 0
  | PVal.num _, PVal.ninf => PVal.num 0
  | PVal.pinf, PVal.num b => if b < 0 then PVal.ninf else PVal.pinf
  | PVal.ninf, PVal.num b => if b < 0 then PVal.pinf else PVal.ninf
  | PVal.pinf, PVal.pinf => PVal.na
  | PVal.pinf, PVal.ninf => PVal.na
  | PVal.ninf, PVal.pinf => PVal.na
  | PVal.ninf, PVal.ninf => PVal.na

/-- IEEE-754-style multiplication on float64 cells: `NaN` propagates,
`±inf * 0` is `NaN`, otherwise infinities keep the sign rule. -/
def pdMul : PVal → PVal → PVal
  | PVal.na, _ => PVal.na
  | _, PVal.na => PVal.na
  | PVal.num a, PVal.num b => PVal.num (a * b)
  | PVal.pinf, PVal.num b =>
    if b = 0 then PVal.na else if 0 < b then PVal.pinf else PVal.ninf
  | PVal.ninf, PVal.num b =>
    if b = 0 then PVal.na else if 0 < b then PVal.ninf else PVal.pinf
  | PVal.num a, PVal.pinf =>
    if a = 0 then PVal.na else if 0 < a then PVal.pinf else PVal.ninf
  | PVal.num a, PVal.ninf =>
    if a = 0 then PVal.na else if 0 < a then PVal.ninf else PVal.pinf
  | PVal.pinf, PVal.pinf => PVal.pinf
  | PVal.pinf, PVal.ninf => PVal.ninf
  | PVal.ninf, PVal.pinf => PVal.ninf
  | PVal.ninf, PVal.ninf => PVal.pinf

/-- The derived unemployment-percentage column of
`s01_gen_econ_performance.py` line 74 (and `hacking/s01_cleaning.py`
line 41):
`unemployment_percentage = num_unemployed / workforce * 100`. -/
def unemploymentPercentage (unemployed workforce : PVal) : PVal :=
  pdMul (pdDiv unemployed workforce) (PVal.num 100)

/-- Python regex whitespace class for `str` patterns, restricted to the
ASCII whitespace characters that `\s` matches. -/
def isPySpace (c : Char) : Bool :=
  c == ' ' || c == '\t' || c == '\n' || c == '\r' || c == '\x0b' || c == '\x0c'

/-- Numeric value of a list of decimal digit characters
(most significant first). -/
def digitsToNat (l : List Char) : ℕ :=
  l.foldl (fun n c => 10 * n + (c.toNat - 48)) 0

/-- The zip-code extraction of `s01_gen_econ_performance.py` line 158 and
`s02_merging_datasets.py` lines 74-78:
`.str.extract(r"^\s*(\d{5})")`.  The pattern anchors at the start of the
string, skips leading whitespace, and captures a run of exactly five
digits; a string whose first non-whitespace characters are not five
digits produces a missing value (`None`). -/
def zipExtract5 (s : String) : Option String :=
  let t := s.data.dropWhile isPySpace
  let five := t.take 5
  if five.length = 5 ∧ five.all Char.isDigit then some ⟨five⟩ else none

/-- Applies a fallible cell operation down a column: the whole column
operation raises (`none`) as soon as the operation fails on any cell,
as pandas `.astype` does. -/
def columnMapM {α β : Type} (f : α → Option β) : List α → Option (List β)
  | [] => some []
  | a :: l =>
    match f a, columnMapM f l with
    | some b, some bs => some (b :: bs)
    | _, _ => none

/-- The full zip-code column derivation of `s01_gen_econ_performance.py`
line 158: `.str.extract(r"^\s*(\d{5})").astype(int)`.  The `astype(int)`
cast raises (modelled by `none` at the column level) as soon as any
extraction produced a missing value; otherwise every extracted 5-digit
string is parsed as an integer. -/
def zipColumnS01 (zips : List String) : Option (List ℕ) :=
  columnMapM (fun s => (zipExtract5 s).map fun z => digitsToNat z.data) zips

/-- The zip-code column derivation of `s02_merging_datasets.py` lines
74-78 (`zip_clean`): the extraction result is kept as a string column in
which non-matching rows hold a missing value. -/
def zipColumnS02 (zips : List String) : List (Option String) :=
  zips.map zipExtract5

/-- Embedding of pandas `.str.replace("-", "", regex=False)`: with a
single-character non-regex pattern and empty replacement this removes
every hyphen, i.e. filters the character sequence. -/
def removeHyphens (s : String) : String :=
  ⟨s.data.filter fun c => c ≠ '-'⟩

/-- ASCII letter test matching the character class `[a-zA-Z]`. -/
def isAsciiLetter (c : Char) : Bool :=
  ('a' ≤ c && c ≤ 'z') || ('A' ≤ c && c ≤ 'Z')

/-- Embedding of pandas `.str.replace(r'[a-zA-Z]', "", regex=True)`:
removes every ASCII letter. -/
def removeAsciiLetters (s : String) : String :=
  ⟨s.data.filter fun c => !(isAsciiLetter c)⟩

/-- The RCDTS cleanup applied to the proficiency table
(`s01_gen_econ_performance.py` line 135): cast to string, strip hyphens,
then strip ASCII letters. -/
def rcdtsClean (s : String) : String :=
  removeAsciiLetters (removeHyphens s)

/-- The RCDTS derivation on the school-metadata side
(`s01_gen_econ_performance.py` lines 155-157): concatenate the three code
fields cast to text, then strip hyphens only (no alphabetic stripping is
performed on this side). -/
def rcdtsFromCodes (rcd typ school : String) : String :=
  removeHyphens (rcd ++ typ ++ school)

/-- Embedding of Python `str.split("US")`: scans left to right, cutting
at every non-overlapping occurrence of the two-character separator
`"US"`. -/
def splitUS : List Char → List (List Char)
  | [] => [[]]
  | [c] => [[c]]
  | c1 :: c2 :: rest =>
    if c1 = 'U' ∧ c2 = 'S' then [] :: splitUS rest
    else
      match splitUS (c2 :: rest) with
      | [] => [[c1]]
      | piece :: ps => (c1 :: piece) :: ps

/-- Whether the character sequence contains an occurrence of `"US"`. -/
def containsUS : List Char → Bool
  | [] => false
  | [_] => false
  | c1 :: c2 :: rest =>
    if c1 = 'U' ∧ c2 = 'S' then true else containsUS (c2 :: rest)

/-- Parse an unsigned decimal literal (digits with an optional single
decimal point, as accepted by Python float conversion: `"60621"`,
`"60621.5"`, `"60621."`, `".5"`).  Everything else fails. -/
def parseUnsigned (l : List Char) : Option ℚ :=
  let ip := l.takeWhile Char.isDigit
  let rest := l.drop ip.length
  match rest with
  | [] => if ip.isEmpty then none else some (digitsToNat ip : ℚ)
  | '.' :: fp =>
    if fp.all Char.isDigit && !(ip.isEmpty && fp.isEmpty) then
      some ((digitsToNat ip : ℚ) + (digitsToNat fp : ℚ) / (10 ^ fp.length))
    else none
  | _ => none

/-- Embedding of `pandas.to_numeric(..., errors="coerce")` on the decimal
fragment the pipeline exercises: surrounding whitespace is stripped, an
optional sign is accepted, and any string that is not a plain decimal
literal coerces to `NaN`.  (Scientific notation and the `inf`/`nan`
literals never occur in the modelled columns.) -/
def pdToNumeric (s : String) : PVal :=
  let t := ((s.data.dropWhile isPySpace).reverse.dropWhile isPySpace).reverse
  match t with
  | '+' :: rest =>
    match parseUnsigned rest with
    | some q => PVal.num q
    | none => PVal.na
  | '-' :: rest =>
    match parseUnsigned rest with
    | some q => PVal.num (-q)
    | none => PVal.na
  | l =>
    match parseUnsigned l with
    | some q => PVal.num q
    | none => PVal.na

/-- Embedding of `.astype("Int64")` on a float cell: missing stays
missing, an integral value becomes an integer, and a non-integral or
infinite value raises (modelled by `none`). -/
def astypeInt64 (v : PVal) : Option (Option ℤ) :=
  match v with
  | PVal.na => some none
  | PVal.num q => if q.den = 1 then some (some q.num) else none
  | PVal.pinf => none
  | PVal.ninf => none

/-- The zip-code derivation from the geographic identifier
(`s01_gen_econ_performance.py` lines 77-81 and `hacking/s01_cleaning.py`
lines 43-47):
`pandas.to_numeric(x["geo_id"].str.split("US").str[1], errors="coerce").astype("Int64")`.
`.str[1]` takes the piece at index 1 of the split (missing when the
separator does not occur), `to_numeric` coerces parse failures to
missing, and the `Int64` cast keeps missing as missing. -/
def zipFromGeoId (g : String) : Option (Option ℤ) :=
  astypeInt64
    (((splitUS g.data)[1]?).elim PVal.na fun piece => pdToNumeric ⟨piece⟩)

/-- The neighborhood-label harmonization of `single_map.py` and
`static_maps.py` lines 16-19:
`.replace({"East Garfield Park": "Garfield Park"})` — an exact-match
cell replacement. -/
def remapNeighborhood (s : String) : String :=
  if s = "East Garfield Park" then "Garfield Park" else s

/-- The replacement applied down the neighborhood column. -/
def remapNeighborhoodColumn (xs : List String) : List String :=
  xs.map remapNeighborhood

/-- A row of `math_and_science_prof` after the RCDTS cleanup (line 135):
the proficiency metrics are carried opaquely as the spreadsheet cell
text; `pctScience` is optional because the science sheet is left-joined
onto the math sheet. -/
structure ProfRow where
  rcdts : String
  schoolName : String
  city : String
  pctELA : String
  pctMath : String
  pctScience : Option String
deriving DecidableEq, Repr

/-- A row of `school_data` after line 159: identifier, zip (an `int`
column — line 158 casts with `astype(int)`), county. -/
structure SchoolMetaRow where
  rcdts : String
  zip_code : ℤ
  county : String
deriving DecidableEq, Repr

/-- A row of the cleaned `data_econ` table (lines 45-92): nullable-int
zip code, the coerced numeric columns, the derived unemployment
percentage, neighborhood and year tags. -/
structure EconRow where
  zip_code : Option ℤ
  num_unemployed : PVal
  workforce : PVal
  poverty_pct : PVal
  unemployment_pct : PVal
  neighborhood : String
  year : String
deriving DecidableEq, Repr

/-- A row of `data_df` after the first merge (line 165): all proficiency
fields plus the metadata fields, which are missing when no metadata row
matched the school identifier. -/
structure ProfMetaRow where
  prof : ProfRow
  zip_code : Option ℤ
  county : Option String
deriving DecidableEq, Repr

/-- A row of `data_df` after the second merge (line 166): the economic
fields are missing as a block when no economic record matched the zip
code. -/
structure MergedRow where
  profMeta : ProfMetaRow
  econ : Option EconRow
deriving DecidableEq, Repr

/-- pandas `left.merge(right, on=key, how="left")`: every left row is
kept; a left row with at least one key match produces one output row per
matching right row, and a left row with no match produces a single row
whose right-side fields are missing. -/
def leftJoin {L R O : Type} (ls : List L) (rs : List R)
    (keyEq : L → R → Bool) (combine : L → R → O) (noMatch : L → O) :
    List O :=
  ls.bind fun l =>
    match rs.filter (keyEq l) with
    | [] => [noMatch l]
    | ms => ms.map (combine l)

/-- Line 165: `math_and_science_prof.merge(school_data, on="RCDTS",
how="left")`. -/
def mergeProfMeta (prof : List ProfRow) (meta : List SchoolMetaRow) :
    List ProfMetaRow :=
  leftJoin prof meta (fun p m => p.rcdts == m.rcdts)
    (fun p m => ⟨p, some m.zip_code, some m.county⟩)
    (fun p => ⟨p, none, none⟩)

/-- Line 166: `.merge(data_econ, on="zip_code", how="left")`.  The key
columns are nullable; pandas matches missing keys with missing keys,
modelled by plain `Option` equality (in the pipeline the economic table
never carries a missing zip, so this case does not arise). -/
def mergeWithEcon (pms : List ProfMetaRow) (econ : List EconRow) :
    List MergedRow :=
  leftJoin pms econ (fun pm e => pm.zip_code == e.zip_code)
    (fun pm e => ⟨pm, some e⟩)
    (fun pm => ⟨pm, none⟩)

/-- `s01_gen_econ_performance.py` line 22. -/
def ZIP_CODES : List ℤ :=
  [60621, 60636, 60619, 60620, 60623, 60624, 60647, 60651]

/-- Line 23 (note the duplicated 60657, as in the source). -/
def ZIP_CODES_ADD : List ℤ :=
  [60614, 60657, 60626, 60645, 60660, 60640, 60641, 60613, 60657]

/-- Line 24: `ALL_ZIP_CODES = ZIP_CODES + ZIP_CODES_ADD`. -/
def ALL_ZIP_CODES : List ℤ := ZIP_CODES ++ ZIP_CODES_ADD

/-- The `isin(ALL_ZIP_CODES)` membership test on a nullable-int zip
cell; a missing zip is never in the allow-list. -/
def zipAllowed (z : Option ℤ) : Bool :=
  match z with
  | some v => decide (v ∈ ALL_ZIP_CODES)
  | none => false

/-- Lines 165-167: the fixed merge sequence followed by the allow-list
filter `data_df[data_df["zip_code"].isin(ALL_ZIP_CODES)]`. -/
def dataDf (prof : List ProfRow) (meta : List SchoolMetaRow)
    (econ : List EconRow) : List MergedRow :=
  (mergeWithEcon (mergeProfMeta prof meta) econ).filter
    fun r => zipAllowed r.profMeta.zip_code

/-- Insertion into a sorted list of rationals. -/
def insertSorted (x : ℚ) : List ℚ → List ℚ
  | [] => [x]
  | y :: ys => if x ≤ y then x :: y :: ys else y :: insertSorted x ys

/-- Insertion sort on rationals (any correct sort gives the same order
statistics, hence the same median as pandas). -/
def sortQ (l : List ℚ) : List ℚ := l.foldr insertSorted []

/-- pandas `median` of the non-missing values of a column: `NaN` on an
empty list, the middle order statistic for odd length, the mean of the
two middle order statistics for even length. -/
def median (xs : List ℚ) : Option ℚ :=
  let s := sortQ xs
  let n := s.length
  if n = 0 then none
  else if n % 2 = 1 then some (s.getD (n / 2) 0)
  else some ((s.getD (n / 2 - 1) 0 + s.getD (n / 2) 0) / 2)

/-- Worker for `dropDuplicates`: keeps elements not yet seen, in first
occurrence order. -/
def dedupAux {α : Type} [DecidableEq α] (seen : List α) : List α → List α
  | [] => []
  | a :: l =>
    if a ∈ seen then dedupAux seen l else a :: dedupAux (a :: seen) l

/-- pandas `drop_duplicates` / distinct values in first-occurrence
order. -/
def dropDuplicates {α : Type} [DecidableEq α] (l : List α) : List α :=
  dedupAux [] l

/-- A row of `clean_data.csv` as consumed by `single_map.py` /
`static_maps.py` after the `to_numeric` coercion of the metric columns
(step 5): neighborhood key (already renamed to `pri_neigh`), school
identifier, and the five metric columns as nullable numerics. -/
structure CleanRow where
  pri_neigh : String
  rcdts : String
  pctELA : Option ℚ
  pctMath : Option ℚ
  pctScience : Option ℚ
  unemployment_percentage : Option ℚ
  percent_below_poverty_level : Option ℚ
deriving DecidableEq, Repr

/-- A row of `df_neigh`: one row per neighborhood with the distinct
school count and the median of each metric. -/
structure NeighRow where
  pri_neigh : String
  n_schools : ℕ
  pctELA : Option ℚ
  pctMath : Option ℚ
  pctScience : Option ℚ
  unemployment_percentage : Option ℚ
  percent_below_poverty_level : Option ℚ
deriving DecidableEq, Repr

/-- The neighborhood roll-up of `single_map.py` / `static_maps.py`
lines 48-56: `groupby("pri_neigh").agg(n_schools=("RCDTS", "nunique"),
median of each metric)`.  Missing metric values are excluded from the
median (pandas skips `NaN`); group keys are the distinct neighborhoods
(pandas additionally sorts them, which no claim depends on). -/
def dfNeigh (rows : List CleanRow) : List NeighRow :=
  (dropDuplicates (rows.map fun r => r.pri_neigh)).map fun g =>
    let grp := rows.filter fun r => r.pri_neigh = g
    { pri_neigh := g
      n_schools := (dropDuplicates (grp.map fun r => r.rcdts)).length
      pctELA := median (grp.filterMap fun r => r.pctELA)
      pctMath := median (grp.filterMap fun r => r.pctMath)
      pctScience := median (grp.filterMap fun r => r.pctScience)
      unemployment_percentage :=
        median (grp.filterMap fun r => r.unemployment_percentage)
      percent_below_poverty_level :=
        median (grp.filterMap fun r => r.percent_below_poverty_level) }

/-- Lines 26-43: the zip-to-neighborhood dictionary (string keys, as the
zip column is cast to `str` before the `.map`). -/
def zip_neighbor_dict : List (String × String) :=
  [("60621", "Englewood"), ("60636", "Englewood"), ("60619", "Chatham"),
   ("60620", "Chatham"), ("60623", "North Lawndale"),
   ("60624", "East Garfield Park"), ("60647", "Humboldt Park"),
   ("60651", "Humboldt Park"), ("60614", "Lincoln Park"),
   ("60657", "Lincoln Park"), ("60626", "Rogers Park"),
   ("60645", "Rogers Park"), ("60660", "Edgewater"),
   ("60640", "Edgewater"), ("60641", "Portage Park"),
   ("60613", "Lake View")]

/-- A raw row of the ACS DP03 extract as selected on line 52: the
identifier columns plus the three estimate columns (all text until
coerced). -/
structure EconSrcRow where
  geo_id : String
  name : String
  dp03_0005e : String
  dp03_0003e : String
  dp03_0119pe : String
deriving DecidableEq, Repr

/-- The `data_econ` row after lines 61-85 (coercions, derived
unemployment percentage, zip code), before the allow-list filter. -/
structure EconMidRow where
  zip_code : Option ℤ
  num_unemployed : PVal
  workforce : PVal
  poverty_pct : PVal
  unemployment_pct : PVal
deriving DecidableEq, Repr

/-- Lines 61-85 applied to one source row; the `Int64` cast inside the
zip derivation can raise, hence `Option`. -/
def econMid (r : EconSrcRow) : Option EconMidRow :=
  (zipFromGeoId r.geo_id).map fun z =>
    { zip_code := z
      num_unemployed := pdToNumeric r.dp03_0005e
      workforce := pdToNumeric r.dp03_0003e
      poverty_pct := pdToNumeric r.dp03_0119pe
      unemployment_pct :=
        unemploymentPercentage (pdToNumeric r.dp03_0005e)
          (pdToNumeric r.dp03_0003e) }

/-- Line 90 applied to one non-missing zip value:
`astype(int).astype(str).map(zip_neighbor_dict).fillna("Unknown")`. -/
def neighborhoodOf (z : ℤ) : String :=
  (zip_neighbor_dict.lookup (toString z)).getD "Unknown"

/-- Lines 90-91 applied to one filtered row: `astype(int)` raises on a
missing zip (modelled by `none`); otherwise the neighborhood and year
columns are appended. -/
def econFinalize (m : EconMidRow) : Option EconRow :=
  m.zip_code.map fun z =>
    { zip_code := some z
      num_unemployed := m.num_unemployed
      workforce := m.workforce
      poverty_pct := m.poverty_pct
      unemployment_pct := m.unemployment_pct
      neighborhood := neighborhoodOf z
      year := "2023" }

/-- The `data_econ` table of lines 45-92: per-row derivations, the
allow-list filter of line 87, then the neighborhood/year assignment of
lines 90-91. -/
def dataEcon (src : List EconSrcRow) : Option (List EconRow) :=
  match columnMapM econMid src with
  | none => none
  | some mids =>
    columnMapM econFinalize (mids.filter fun m => zipAllowed m.zip_code)

/-- A row of the report-card sheet "ELAMathScience" as used on lines
99-111. -/
structure ReportCardRow where
  rcdts : String
  schoolName : String
  city : String
  level : String
  pctELA : String
  pctMath : String
deriving DecidableEq, Repr

/-- A row of the report-card sheet "ELAMathScience (2)" as used on lines
114-126. -/
structure ScienceRow where
  rcdts : String
  schoolName : String
  city : String
  level : String
  pctScience : String
deriving DecidableEq, Repr

/-- The math/ELA selection after the Chicago-school filter (lines
105-111). -/
structure MathSelRow where
  rcdts : String
  schoolName : String
  city : String
  pctELA : String
  pctMath : String
deriving DecidableEq, Repr

/-- The science selection after the Chicago-school filter (lines
120-126). -/
structure SciSelRow where
  rcdts : String
  schoolName : String
  city : String
  pctScience : String
deriving DecidableEq, Repr

/-- Lines 105-111: filter to Chicago schools and select the five
columns. -/
def mathProfSel (rows : List ReportCardRow) : List MathSelRow :=
  (rows.filter fun r => r.city = "Chicago" ∧ r.level = "School").map
    fun r => ⟨r.rcdts, r.schoolName, r.city, r.pctELA, r.pctMath⟩

/-- Lines 120-126: filter to Chicago schools and select the four
columns. -/
def scienceProfSel (rows : List ScienceRow) : List SciSelRow :=
  (rows.filter fun r => r.city = "Chicago" ∧ r.level = "School").map
    fun r => ⟨r.rcdts, r.schoolName, r.city, r.pctScience⟩

/-- Lines 129-135: left-join the science selection onto the math
selection on (RCDTS, School Name, City), then clean the RCDTS column. -/
def mathAndScienceProf (ms : List ReportCardRow) (ss : List ScienceRow) :
    List ProfRow :=
  (leftJoin (mathProfSel ms) (scienceProfSel ss)
      (fun m s => decide (m.rcdts = s.rcdts ∧ m.schoolName = s.schoolName ∧
        m.city = s.city))
      (fun m s =>
        (⟨m.rcdts, m.schoolName, m.city, m.pctELA, m.pctMath,
          some s.pctScience⟩ : ProfRow))
      (fun m =>
        (⟨m.rcdts, m.schoolName, m.city, m.pctELA, m.pctMath, none⟩ :
          ProfRow))).map
    fun r => { r with rcdts := rcdtsClean r.rcdts }

/-- A row of the district-directory sheet as selected and renamed on
lines 145-154. -/
structure DirRow where
  countyName : String
  rcd : String
  typ : String
  school : String
  facilityName : String
  city : String
  zip : String
deriving DecidableEq, Repr

/-- Lines 155-159: derive RCDTS and the zip code (the `astype(int)` on
line 158 raises on a non-matching postal string), select the three
columns, and drop duplicate rows. -/
def schoolData (rows : List DirRow) : Option (List SchoolMetaRow) :=
  (columnMapM (fun r =>
      (zipExtract5 r.zip).map fun z =>
        ({ rcdts := rcdtsFromCodes r.rcd r.typ r.school
           zip_code := (digitsToNat z.data : ℤ)
           county := r.countyName } : SchoolMetaRow)) rows).map
    dropDuplicates

/-- Lines 165-169: the merged table with the zip column cast back to
`int` and then to `str` (line 168; the cast raises on a missing zip,
which the preceding filter rules out). -/
def mergedOutput (prof : List ProfRow) (meta : List SchoolMetaRow)
    (econ : List EconRow) : Option (List (MergedRow × String)) :=
  columnMapM (fun r => (r.profMeta.zip_code).map fun z => (r, toString z))
    (dataDf prof meta econ)

/-- The whole `s01_gen_econ_performance.py` run as a function of its
four input tables, returning the four written tables
(`economic_characteristics.csv`, `report_card_proficiency_scores.csv`,
`school_metadata.csv`, `merged_data.csv`); each written file is a pure
serialization of its table. -/
def pipelineOutputs (econSrc : List EconSrcRow) (ms : List ReportCardRow)
    (ss : List ScienceRow) (dirRows : List DirRow) :
    Option (List EconRow × List ProfRow × List SchoolMetaRow ×
      List (MergedRow × String)) :=
  match dataEcon econSrc, schoolData dirRows with
  | some econ, some meta =>
    match mergedOutput (mathAndScienceProf ms ss) meta econ with
    | some merged => some (econ, mathAndScienceProf ms ss, meta, merged)
    | none => none
  | _, _ => none

/-- C1, counterexample.  The claim states that the derived unemployment
percentage is missing (null) when the workforce population is 0.  On the
code this fails: with 50 unemployed and a workforce of 0 the float
division yields positive infinity, which pandas does not treat as
missing. -/
theorem c1_unemployment_null_counterexample :
    unemploymentPercentage (PVal.num 50) (PVal.num 0) = PVal.pinf ∧
    unemploymentPercentage (PVal.num 50) (PVal.num 0) ≠ PVal.na := by
  constructor
  · rfl
  · decide

/-- C1, amended.  For every economic record the derived unemployment
percentage equals `unemployed / workforce * 100` when the workforce
population is positive, and is missing (`NaN`) when the workforce is
missing, or when the workforce is 0 and the unemployed count is 0 or
missing (the only zero-workforce cases that arise in ACS data, where
unemployed ≤ workforce); when the workforce is 0 and the unemployed count
is positive the result is positive infinity, not missing.  The
computation never raises a division-by-zero error (it is total). -/
theorem c1_unemployment_amended (u w : PVal) (q p : ℚ) :
    (w = PVal.num p → 0 < p → u = PVal.num q →
      unemploymentPercentage u w = PVal.num (q / p * 100)) ∧
    (w = PVal.na → unemploymentPercentage u w = PVal.na) ∧
    (u = PVal.na → unemploymentPercentage u w = PVal.na) ∧
    (unemploymentPercentage (PVal.num 0) (PVal.num 0) = PVal.na) ∧
    (u = PVal.num q → 0 < q →
      unemploymentPercentage u (PVal.num 0) = PVal.pinf) := by
  refine ⟨?_, ?_, ?_, ?_, ?_⟩
  · intro hw hp hu
    subst hw; subst hu
    have hpne : p ≠ 0 := ne_of_gt hp
    simp [unemploymentPercentage, pdDiv, pdMul, hpne]
  · intro hw
    subst hw
    cases u <;> simp [unemploymentPercentage, pdDiv, pdMul]
  · intro hu
    subst hu
    simp [unemploymentPercentage, pdDiv, pdMul]
  · simp [unemploymentPercentage, pdDiv, pdMul]
  · intro hu hq
    subst hu
    have hqne : q ≠ 0 := ne_of_gt hq
    simp [unemploymentPercentage, pdDiv, pdMul, hqne, hq]

/-- C1, witness: the amended theorem applied at unemployed = 50,
workforce = 500 gives an unemployment percentage of exactly 10. -/
theorem c1_unemployment_witness :
    unemploymentPercentage (PVal.num 50) (PVal.num 500) = PVal.num 10 := by
  have h := (c1_unemployment_amended (PVal.num 50) (PVal.num 500) 50 500).1
    rfl (by norm_num) rfl
  rw [h]
  norm_num

theorem dropWhile_isPySpace_all (ws : List Char) (h : ws.all isPySpace = true) :
    ws.dropWhile isPySpace = [] := by
  induction ws with
  | nil => rfl
  | cons c cs ih =>
    simp only [List.all_cons, Bool.and_eq_true] at h
    rw [List.dropWhile_cons_of_pos h.1]
    exact ih h.2

theorem isPySpace_eq_false_of_isDigit {c : Char} (h : c.isDigit = true) :
    isPySpace c = false := by
  by_contra hc
  rw [Bool.not_eq_false] at hc
  unfold isPySpace at hc
  simp only [Bool.or_eq_true, beq_iff_eq] at hc
  rcases hc with ((((h1 | h1) | h1) | h1) | h1) | h1 <;> subst h1 <;>
    exact absurd h (by decide)

theorem columnMapM_none_of_mem {α β : Type} (f : α → Option β)
    (l : List α) (a : α) (ha : a ∈ l) (h : f a = none) :
    columnMapM f l = none := by
  induction l with
  | nil => cases ha
  | cons b bs ih =>
    rcases List.mem_cons.mp ha with rfl | hmem
    · simp [columnMapM, h]
    · have hl := ih hmem
      cases hfb : f b <;> simp [columnMapM, hfb, hl]

theorem zipColumnS01_none_of_mem (zs : List String) (s : String)
    (hs : s ∈ zs) (h : zipExtract5 s = none) : zipColumnS01 zs = none := by
  apply columnMapM_none_of_mem _ zs s hs
  simp [h]

/-- C2, counterexample.  The claim states that a postal string with no
leading 5-digit run yields a missing value rather than raising an error,
citing `s01_gen_econ_performance.py` line 158.  On that line the
extraction is immediately followed by `.astype(int)`, which raises on a
missing value: a school-directory table containing the postal string
`"ABCDE"` makes the whole zip-code column derivation fail (modelled by
`none` at the column level) instead of producing a missing entry. -/
theorem c2_zip_extraction_counterexample :
    zipExtract5 "ABCDE" = none ∧
    zipColumnS01 [" 60621-1234", "ABCDE"] = none := by
  constructor
  · rfl
  · exact zipColumnS01_none_of_mem _ "ABCDE" (by simp) rfl

/-- C2, amended.  The extraction pattern itself returns exactly the
leading run of 5 digits (after leading whitespace, ignoring any suffix)
and a missing value for a non-matching string; the `s02` variant keeps
that missing value in the retained column (one output cell per input
row); but in the `s01` variant the extracted column is immediately cast
with `.astype(int)`, which raises as soon as any postal string has no
leading 5-digit run, rather than yielding a missing value there. -/
theorem c2_zip_extraction_amended (ws d suf : List Char)
    (hws : ws.all isPySpace = true) (hd5 : d.length = 5)
    (hdd : d.all Char.isDigit = true) :
    zipExtract5 ⟨ws ++ (d ++ suf)⟩ = some ⟨d⟩ ∧
    (∀ zs : List String, (zipColumnS02 zs).length = zs.length) ∧
    (∀ (zs : List String) (i : ℕ),
      (zipColumnS02 zs)[i]? = zs[i]?.map zipExtract5) ∧
    (∀ (zs : List String) (s : String), s ∈ zs → zipExtract5 s = none →
      zipColumnS01 zs = none) := by
  refine ⟨?_, ?_, ?_, ?_⟩
  · have hdrop : (ws ++ (d ++ suf)).dropWhile isPySpace = d ++ suf := by
      rw [List.dropWhile_append, dropWhile_isPySpace_all ws hws]
      simp only [List.isEmpty_nil, if_true]
      cases d with
      | nil => simp at hd5
      | cons c cs =>
        have hc : c.isDigit = true := by
          simp only [List.all_cons, Bool.and_eq_true] at hdd
          exact hdd.1
        rw [List.cons_append, List.dropWhile_cons_of_neg]
        simp [isPySpace_eq_false_of_isDigit hc]
    have hdata : (String.mk (ws ++ (d ++ suf))).data = ws ++ (d ++ suf) := rfl
    simp only [zipExtract5, hdata, hdrop, List.take_left' hd5]
    simp [hd5, hdd]
  · intro zs
    simp [zipColumnS02]
  · intro zs i
    simp [zipColumnS02, List.getElem?_map]
  · intro zs s hs h
    exact zipColumnS01_none_of_mem zs s hs h

/-- C2, witness: the amended theorem applied to the postal string
`" 60624 "` (leading whitespace, trailing suffix) extracts `"60624"`. -/
theorem c2_zip_extraction_witness :
    zipExtract5 " 60624 " = some "60624" := by
  have h := (c2_zip_extraction_amended [' '] ['6', '0', '6', '2', '4'] [' ']
    (by decide) (by decide) (by decide)).1
  exact h

/-- C3, counterexample.  The claim states that on the metadata side the
RCDTS derivation strips hyphens and alphabetic characters so that the
result contains only digits.  The code (lines 155-157) strips only
hyphens on that side: with code fields `"15A"`, `"25"`, `"0001"` the
derived identifier is `"15A250001"`, which still contains the letter
`A` and is not all digits. -/
theorem c3_rcdts_counterexample :
    rcdtsFromCodes "15A" "25" "0001" = "15A250001" ∧
    ("15A250001".data.all Char.isDigit) = false := by
  constructor
  · rfl
  · decide

/-- C3, amended.  The proficiency-side cleanup (line 135) strips hyphens
and ASCII letters; the metadata-side derivation (lines 155-157)
concatenates the three code fields cast to text and strips hyphens only,
so its result contains only digits just when the input fields contain
nothing but digits and hyphens.  Both derivations are deterministic pure
functions of the input fields. -/
theorem c3_rcdts_amended (s rcd typ school : String) :
    ((rcdtsClean s).data
      = s.data.filter (fun c => !(isAsciiLetter c) && decide ¬(c = '-'))) ∧
    ((rcdtsFromCodes rcd typ school).data
      = (rcd.data ++ typ.data ++ school.data).filter (fun c => ¬(c = '-'))) ∧
    (∀ c ∈ (rcdtsClean s).data, ¬(c = '-') ∧ isAsciiLetter c = false) ∧
    (∀ c ∈ (rcdtsFromCodes rcd typ school).data, ¬(c = '-')) ∧
    ((rcd.data ++ typ.data ++ school.data).all
        (fun c => c.isDigit || decide (c = '-')) = true →
      (rcdtsFromCodes rcd typ school).data.all Char.isDigit = true) ∧
    (∀ r2 t2 s2 : String, rcd = r2 → typ = t2 → school = s2 →
      rcdtsFromCodes rcd typ school = rcdtsFromCodes r2 t2 s2) := by
  refine ⟨?_, ?_, ?_, ?_, ?_, ?_⟩
  · simp [rcdtsClean, removeAsciiLetters, removeHyphens, List.filter_filter]
  · simp [rcdtsFromCodes, removeHyphens, String.data_append, List.append_assoc]
  · intro c hc
    simp only [rcdtsClean, removeAsciiLetters, removeHyphens,
      List.mem_filter] at hc
    rcases hc with ⟨⟨_, h1⟩, h2⟩
    refine ⟨by simpa using h1, by simpa using h2⟩
  · intro c hc
    simp only [rcdtsFromCodes, removeHyphens, List.mem_filter] at hc
    simpa using hc.2
  · intro hall
    simp only [rcdtsFromCodes, removeHyphens] at *
    rw [List.all_eq_true] at hall ⊢
    intro c hc
    rw [List.mem_filter] at hc
    have hmem : c ∈ rcd.data ++ typ.data ++ school.data := by
      have := hc.1
      simpa [String.data_append, List.append_assoc] using this
    have hp := hall c hmem
    simp only [Bool.or_eq_true, decide_eq_true_eq] at hp
    rcases hp with hp | hp
    · exact hp
    · exact absurd hp (by simpa using hc.2)
  · intro r2 t2 s2 h1 h2 h3
    rw [h1, h2, h3]

/-- C3, witness: the amended theorem applied to the code fields
`"15-016-2990"`, `"25"`, `"0001"` — hyphens are stripped on the metadata
side and the all-digit guarantee holds for these digit-and-hyphen
fields. -/
theorem c3_rcdts_witness :
    (rcdtsFromCodes "15-016-2990" "25" "0001").data.all Char.isDigit
      = true := by
  exact (c3_rcdts_amended "x" "15-016-2990" "25" "0001").2.2.2.2.1 (by decide)

theorem splitUS_of_not_containsUS (l : List Char) (h : containsUS l = false) :
    splitUS l = [l] := by
  induction l with
  | nil => rfl
  | cons c tail ih =>
    cases tail with
    | nil => rfl
    | cons c2 rest =>
      have hcond : ¬(c = 'U' ∧ c2 = 'S') := by
        intro hc
        simp only [containsUS, if_pos hc] at h
        exact absurd h (by decide)
      have htail : containsUS (c2 :: rest) = false := by
        simp only [containsUS, if_neg hcond] at h
        exact h
      simp only [splitUS, if_neg hcond, ih htail]

theorem splitUS_append (p q : List Char) (h : containsUS p = false) :
    splitUS (p ++ 'U' :: 'S' :: q) = p :: splitUS q := by
  induction p with
  | nil =>
    simp [splitUS]
  | cons c tail ih =>
    cases tail with
    | nil =>
      simp [splitUS]
    | cons c2 rest =>
      have hcond : ¬(c = 'U' ∧ c2 = 'S') := by
        intro hc
        simp only [containsUS, if_pos hc] at h
        exact absurd h (by decide)
      have htail : containsUS (c2 :: rest) = false := by
        simp only [containsUS, if_neg hcond] at h
        exact h
      have hrec := ih htail
      rw [List.cons_append] at hrec
      simp only [List.cons_append, splitUS, if_neg hcond, List.append_eq, hrec]

theorem containsUS_eq_false_of_no_U (l : List Char)
    (h : ∀ c ∈ l, ¬(c = 'U')) : containsUS l = false := by
  induction l with
  | nil => rfl
  | cons c tail ih =>
    cases tail with
    | nil => rfl
    | cons c2 rest =>
      have hc : ¬(c = 'U' ∧ c2 = 'S') := fun hp => h c (by simp) hp.1
      simp only [containsUS, if_neg hc]
      exact ih fun x hx => h x (List.mem_cons_of_mem _ hx)

theorem takeWhile_eq_self_of_all {p : Char → Bool} (l : List Char)
    (h : l.all p = true) : l.takeWhile p = l := by
  induction l with
  | nil => rfl
  | cons c tail ih =>
    simp only [List.all_cons, Bool.and_eq_true] at h
    simp [List.takeWhile_cons, h.1, ih h.2]

theorem dropWhile_eq_self_of_head {p : Char → Bool} (c : Char)
    (cs : List Char) (h : p c = false) :
    (c :: cs).dropWhile p = c :: cs := by
  rw [List.dropWhile_cons_of_neg]
  simp [h]

theorem pdToNumeric_digits (d : List Char) (hne : d ≠ [])
    (hdd : d.all Char.isDigit = true) :
    pdToNumeric ⟨d⟩ = PVal.num (digitsToNat d) := by
  obtain ⟨c, cs, rfl⟩ := List.exists_cons_of_ne_nil hne
  have hall : ∀ x ∈ c :: cs, x.isDigit = true := by
    rw [List.all_eq_true] at hdd
    intro x hx
    exact hdd x hx
  have hc : c.isDigit = true := hall c (by simp)
  have hdrop1 : (c :: cs).dropWhile isPySpace = c :: cs :=
    dropWhile_eq_self_of_head c cs (isPySpace_eq_false_of_isDigit hc)
  have hrev : ((c :: cs).reverse).dropWhile isPySpace = (c :: cs).reverse := by
    cases hr : (c :: cs).reverse with
    | nil => simp at hr
    | cons r rs =>
      have hrmem : r ∈ c :: cs := by
        have hmem : r ∈ (c :: cs).reverse := by
          rw [hr]
          exact List.mem_cons_self r rs
        exact List.mem_reverse.mp hmem
      exact dropWhile_eq_self_of_head r rs
        (isPySpace_eq_false_of_isDigit (hall r hrmem))
  have hdata : (String.mk (c :: cs)).data = c :: cs := rfl
  simp only [pdToNumeric, hdata, hdrop1, hrev, List.reverse_reverse]
  have hip : (c :: cs).takeWhile Char.isDigit = c :: cs :=
    takeWhile_eq_self_of_all _ hdd
  split
  case _ rest heq =>
    have : c = '+' := (List.cons.injEq _ _ _ _ ▸ heq).1
    rw [this] at hc
    exact absurd hc (by decide)
  case _ rest heq =>
    have : c = '-' := (List.cons.injEq _ _ _ _ ▸ heq).1
    rw [this] at hc
    exact absurd hc (by decide)
  case _ =>
    simp only [parseUnsigned, hip, List.drop_length]
    simp [List.isEmpty]

theorem columnMapM_length {α β : Type} (f : α → Option β) (l : List α)
    (out : List β) (h : columnMapM f l = some out) :
    out.length = l.length := by
  induction l generalizing out with
  | nil =>
    simp only [columnMapM, Option.some.injEq] at h
    subst h
    rfl
  | cons a as ih =>
    simp only [columnMapM] at h
    cases hfa : f a with
    | none => rw [hfa] at h; simp at h
    | some b =>
      rw [hfa] at h
      cases hca : columnMapM f as with
      | none => rw [hca] at h; simp at h
      | some bs =>
        rw [hca] at h
        simp only [Option.some.injEq] at h
        subst h
        simp [ih bs hca]

/-- C5, counterexample.  The claim states that for every identifier of
the form `<prefix>US<5 digits>` the derivation extracts the 5-digit
suffix as an integer.  When the prefix itself contains `"US"` this
fails: `"XUSYUS60621"` has prefix `"XUSY"` and suffix `"60621"`, but
`split("US")` cuts at the first occurrence, `.str[1]` picks the middle
piece `"Y"`, and numeric coercion turns it into a missing value instead
of 60621. -/
theorem c5_geoid_counterexample :
    zipFromGeoId "XUSYUS60621" = some none ∧
    zipFromGeoId "XUSYUS60621" ≠ some (some 60621) := by
  constructor
  · rfl
  · decide

/-- C5, amended.  For identifiers `<prefix>US<5 digits>` whose prefix
does not itself contain `"US"`, the derivation returns exactly the
numeric value of the 5-digit suffix; an identifier with no `"US"`
separator yields a missing key without raising; a suffix piece that
fails numeric coercion yields a missing key without raising; and the
zip-assignment column operation preserves the number of rows (malformed
rows are retained, not dropped at parse time). -/
theorem c5_geoid_amended (p d : List Char)
    (hp : containsUS p = false) (hd5 : d.length = 5)
    (hdd : d.all Char.isDigit = true) :
    zipFromGeoId ⟨p ++ 'U' :: 'S' :: d⟩
      = some (some (digitsToNat d : ℤ)) ∧
    (∀ g : String, containsUS g.data = false →
      zipFromGeoId g = some none) ∧
    (∀ p2 d2 : List Char, containsUS p2 = false → containsUS d2 = false →
      pdToNumeric ⟨d2⟩ = PVal.na →
      zipFromGeoId ⟨p2 ++ 'U' :: 'S' :: d2⟩ = some none) ∧
    (∀ (gs : List String) (out : List (Option ℤ)),
      columnMapM zipFromGeoId gs = some out → out.length = gs.length) := by
  refine ⟨?_, ?_, ?_, ?_⟩
  · have hnoU : containsUS d = false := by
      apply containsUS_eq_false_of_no_U
      intro x hx hxu
      have hxd := (List.all_eq_true.mp hdd) x hx
      rw [hxu] at hxd
      exact absurd hxd (by decide)
    have hne : d ≠ [] := by
      intro hnil
      rw [hnil] at hd5
      simp at hd5
    have hdata : (String.mk (p ++ 'U' :: 'S' :: d)).data
        = p ++ 'U' :: 'S' :: d := rfl
    simp only [zipFromGeoId, hdata, splitUS_append p d hp,
      splitUS_of_not_containsUS d hnoU]
    rw [show (p :: [d])[1]? = some d from rfl]
    rw [Option.elim_some, pdToNumeric_digits d hne hdd]
    simp [astypeInt64]
  · intro g hg
    simp only [zipFromGeoId, splitUS_of_not_containsUS g.data hg]
    rfl
  · intro p2 d2 hp2 hd2 hna
    have hdata : (String.mk (p2 ++ 'U' :: 'S' :: d2)).data
        = p2 ++ 'U' :: 'S' :: d2 := rfl
    simp only [zipFromGeoId, hdata, splitUS_append p2 d2 hp2,
      splitUS_of_not_containsUS d2 hd2]
    rw [show (p2 :: [d2])[1]? = some d2 from rfl, Option.elim_some, hna]
    rfl
  · intro gs out h
    exact columnMapM_length zipFromGeoId gs out h

/-- C5, witness: the amended theorem applied to the well-formed ACS
identifier `"8600000US60621"` derives the zip code 60621. -/
theorem c5_geoid_witness :
    zipFromGeoId "8600000US60621" = some (some 60621) := by
  have h := (c5_geoid_amended ['8', '6', '0', '0', '0', '0', '0']
      ['6', '0', '6', '2', '1'] (by decide) (by decide) (by decide)).1
  have he : ("8600000US60621" : String)
      = ⟨['8', '6', '0', '0', '0', '0', '0']
          ++ 'U' :: 'S' :: ['6', '0', '6', '2', '1']⟩ := by decide
  rw [he, h]
  decide

theorem leftJoin_preserves {L R O : Type} (ls : List L) (rs : List R)
    (keyEq : L → R → Bool) (combine : L → R → O) (noMatch : L → O)
    (proj : O → L) (hc : ∀ l r, proj (combine l r) = l)
    (hn : ∀ l, proj (noMatch l) = l) :
    ∀ l ∈ ls, ∃ o ∈ leftJoin ls rs keyEq combine noMatch, proj o = l := by
  intro l hl
  cases hm : rs.filter (keyEq l) with
  | nil =>
    refine ⟨noMatch l, ?_, hn l⟩
    rw [leftJoin, List.mem_bind]
    exact ⟨l, hl, by rw [hm]; simp⟩
  | cons m ms =>
    refine ⟨combine l m, ?_, hc l m⟩
    rw [leftJoin, List.mem_bind]
    refine ⟨l, hl, ?_⟩
    rw [hm]
    exact List.mem_map_of_mem _ (List.mem_cons_self m ms)

theorem leftJoin_noMatch_mem {L R O : Type} (ls : List L) (rs : List R)
    (keyEq : L → R → Bool) (combine : L → R → O) (noMatch : L → O)
    (l : L) (hl : l ∈ ls) (hno : rs.filter (keyEq l) = []) :
    noMatch l ∈ leftJoin ls rs keyEq combine noMatch := by
  rw [leftJoin, List.mem_bind]
  exact ⟨l, hl, by rw [hno]; simp⟩

/-- C9.  Before the spatial join every occurrence of
"East Garfield Park" is remapped to "Garfield Park", no other label is
changed, and after the remapping no cell carries the label
"East Garfield Park". -/
theorem c9_neighborhood_remap (xs : List String) (s : String) :
    remapNeighborhood "East Garfield Park" = "Garfield Park" ∧
    (s ≠ "East Garfield Park" → remapNeighborhood s = s) ∧
    (∀ t ∈ remapNeighborhoodColumn xs, t ≠ "East Garfield Park") := by
  refine ⟨rfl, fun h => if_neg h, ?_⟩
  intro t ht
  rcases List.mem_map.mp ht with ⟨u, _, rfl⟩
  by_cases h : u = "East Garfield Park"
  · subst h
    simp only [remapNeighborhood, if_pos rfl]
    decide
  · simp only [remapNeighborhood, if_neg h]
    exact h

/-- C9, witness: the remap applied to the column
["East Garfield Park", "Englewood"] changes exactly the first cell. -/
theorem c9_neighborhood_remap_witness :
    remapNeighborhood "East Garfield Park" = "Garfield Park" ∧
    remapNeighborhood "Englewood" = "Englewood" ∧
    (∀ t ∈ remapNeighborhoodColumn ["East Garfield Park", "Englewood"],
      t ≠ "East Garfield Park") := by
  refine ⟨(c9_neighborhood_remap [] "x").1, ?_, ?_⟩
  · exact (c9_neighborhood_remap [] "Englewood").2.1 (by decide)
  · exact (c9_neighborhood_remap ["East Garfield Park", "Englewood"] "x").2.2

/-- C4.  The merge runs in the fixed order: proficiency left-joined to
metadata on the school identifier, the result left-joined to the
economic table on the zip code, then the allow-list filter (this order
is the definition of `dataDf`).  The left joins preserve every
proficiency row; a proficiency row with no metadata match survives with
missing metadata fields, a joined row with no economic match survives
with missing economic fields, and only the final allow-list filter drops
rows — exactly those whose zip code fails the membership test. -/
theorem c4_merge_sequence (prof : List ProfRow) (meta : List SchoolMetaRow)
    (econ : List EconRow) :
    (∀ p ∈ prof, ∃ r ∈ mergeWithEcon (mergeProfMeta prof meta) econ,
      r.profMeta.prof = p) ∧
    (∀ p ∈ prof, (∀ m ∈ meta, ¬((p.rcdts == m.rcdts) = true)) →
      (⟨p, none, none⟩ : ProfMetaRow) ∈ mergeProfMeta prof meta) ∧
    (∀ pm ∈ mergeProfMeta prof meta,
      (∀ e ∈ econ, ¬((pm.zip_code == e.zip_code) = true)) →
      (⟨pm, none⟩ : MergedRow) ∈ mergeWithEcon (mergeProfMeta prof meta) econ) ∧
    (∀ r : MergedRow, r ∈ dataDf prof meta econ ↔
      r ∈ mergeWithEcon (mergeProfMeta prof meta) econ ∧
        zipAllowed r.profMeta.zip_code = true) := by
  refine ⟨?_, ?_, ?_, ?_⟩
  · intro p hp
    obtain ⟨pm, hpm, hpmp⟩ := leftJoin_preserves prof meta
      (fun p m => p.rcdts == m.rcdts)
      (fun p m => ⟨p, some m.zip_code, some m.county⟩)
      (fun p => ⟨p, none, none⟩) ProfMetaRow.prof
      (fun _ _ => rfl) (fun _ => rfl) p hp
    obtain ⟨r, hr, hrpm⟩ := leftJoin_preserves (mergeProfMeta prof meta) econ
      (fun pm e => pm.zip_code == e.zip_code)
      (fun pm e => ⟨pm, some e⟩)
      (fun pm => ⟨pm, none⟩) MergedRow.profMeta
      (fun _ _ => rfl) (fun _ => rfl) pm hpm
    exact ⟨r, hr, by rw [hrpm, hpmp]⟩
  · intro p hp hno
    exact leftJoin_noMatch_mem prof meta _ _ _ p hp
      (List.filter_eq_nil.mpr hno)
  · intro pm hpm hno
    exact leftJoin_noMatch_mem (mergeProfMeta prof meta) econ _ _ _ pm hpm
      (List.filter_eq_nil.mpr hno)
  · intro r
    rw [dataDf, List.mem_filter]

/-- C4, witness: with one proficiency row whose identifier matches one
metadata row carrying zip 60621 and one economic record for 60621, the
pre-filter merged table contains a row carrying that proficiency row. -/
theorem c4_merge_sequence_witness :
    ∃ r ∈ mergeWithEcon
        (mergeProfMeta
          [⟨"150162990250001", "School A", "Chicago", "50", "40", some "30"⟩]
          [⟨"150162990250001", 60621, "Cook"⟩])
        [⟨some 60621, PVal.num 50, PVal.num 500, PVal.num 20, PVal.num 10,
          "Englewood", "2023"⟩],
      r.profMeta.prof
        = ⟨"150162990250001", "School A", "Chicago", "50", "40", some "30"⟩ := by
  exact (c4_merge_sequence
    [⟨"150162990250001", "School A", "Chicago", "50", "40", some "30"⟩]
    [⟨"150162990250001", 60621, "Cook"⟩]
    [⟨some 60621, PVal.num 50, PVal.num 500, PVal.num 20, PVal.num 10,
      "Englewood", "2023"⟩]).1 _ (by simp)

/-- C6.  The final allow-list filter is exact set membership on the
zip-code column: every row of the final merged table carries a
non-missing zip code that belongs to `ALL_ZIP_CODES`; 60622 is not in
the allow-list, so no row with zip 60622 ever appears in the final
output, no matter what matched in the earlier joins. -/
theorem c6_allowlist_membership (prof : List ProfRow)
    (meta : List SchoolMetaRow) (econ : List EconRow) (r : MergedRow)
    (hr : r ∈ dataDf prof meta econ) :
    (∃ z : ℤ, r.profMeta.zip_code = some z ∧ z ∈ ALL_ZIP_CODES) ∧
    (60622 : ℤ) ∉ ALL_ZIP_CODES ∧
    r.profMeta.zip_code ≠ some (60622 : ℤ) := by
  rw [dataDf, List.mem_filter] at hr
  have hmem := hr.2
  cases hopt : r.profMeta.zip_code with
  | none =>
    rw [hopt] at hmem
    exact absurd hmem (by simp [zipAllowed])
  | some v =>
    rw [hopt] at hmem
    simp only [zipAllowed, decide_eq_true_eq] at hmem
    refine ⟨⟨v, rfl, hmem⟩, by decide, ?_⟩
    intro hcontr
    injection hcontr with hv
    subst hv
    exact absurd hmem (by decide)

/-- C6, witness: the concrete merged row produced from the 60621 example
tables is in the final output, and the theorem certifies its zip is in
the allow-list. -/
theorem c6_allowlist_membership_witness :
    ∃ z : ℤ,
      (⟨⟨⟨"150162990250001", "School A", "Chicago", "50", "40", some "30"⟩,
          some 60621, some "Cook"⟩,
        some ⟨some 60621, PVal.num 50, PVal.num 500, PVal.num 20,
          PVal.num 10, "Englewood", "2023"⟩⟩ : MergedRow).profMeta.zip_code
        = some z ∧ z ∈ ALL_ZIP_CODES := by
  exact (c6_allowlist_membership
    [⟨"150162990250001", "School A", "Chicago", "50", "40", some "30"⟩]
    [⟨"150162990250001", 60621, "Cook"⟩]
    [⟨some 60621, PVal.num 50, PVal.num 500, PVal.num 20, PVal.num 10,
      "Englewood", "2023"⟩]
    ⟨⟨⟨"150162990250001", "School A", "Chicago", "50", "40", some "30"⟩,
        some 60621, some "Cook"⟩,
      some ⟨some 60621, PVal.num 50, PVal.num 500, PVal.num 20,
        PVal.num 10, "Englewood", "2023"⟩⟩
    (by decide)).1

theorem mem_dedupAux {α : Type} [DecidableEq α] (l : List α) :
    ∀ (seen : List α) (x : α),
      x ∈ dedupAux seen l ↔ x ∈ l ∧ x ∉ seen := by
  induction l with
  | nil => intro seen x; simp [dedupAux]
  | cons a t ih =>
    intro seen x
    by_cases ha : a ∈ seen
    · rw [dedupAux, if_pos ha, ih seen x]
      constructor
      · exact fun h => ⟨List.mem_cons_of_mem _ h.1, h.2⟩
      · rintro ⟨hx, hns⟩
        rcases List.mem_cons.mp hx with rfl | hx
        · exact absurd ha hns
        · exact ⟨hx, hns⟩
    · rw [dedupAux, if_neg ha]
      constructor
      · intro hx
        rcases List.mem_cons.mp hx with rfl | hx
        · exact ⟨List.mem_cons_self _ _, ha⟩
        · have := (ih (a :: seen) x).mp hx
          refine ⟨List.mem_cons_of_mem _ this.1, fun hs => this.2 ?_⟩
          exact List.mem_cons_of_mem _ hs
      · rintro ⟨hx, hns⟩
        rcases List.mem_cons.mp hx with rfl | hx
        · exact List.mem_cons_self _ _
        · by_cases hxa : x = a
          · subst hxa
            exact List.mem_cons_self _ _
          · refine List.mem_cons_of_mem _ ((ih (a :: seen) x).mpr ⟨hx, ?_⟩)
            intro hs
            rcases List.mem_cons.mp hs with h1 | h1
            · exact hxa h1
            · exact hns h1

theorem mem_dropDuplicates {α : Type} [DecidableEq α] (l : List α) (x : α) :
    x ∈ dropDuplicates l ↔ x ∈ l := by
  rw [dropDuplicates, mem_dedupAux]
  simp

theorem nodup_dedupAux {α : Type} [DecidableEq α] (l : List α) :
    ∀ seen : List α, (dedupAux seen l).Nodup := by
  induction l with
  | nil => intro seen; simp [dedupAux]
  | cons a t ih =>
    intro seen
    by_cases ha : a ∈ seen
    · rw [dedupAux, if_pos ha]
      exact ih seen
    · rw [dedupAux, if_neg ha]
      refine List.Nodup.cons ?_ (ih (a :: seen))
      intro hmem
      have := (mem_dedupAux t (a :: seen) a).mp hmem
      exact this.2 (List.mem_cons_self _ _)

theorem nodup_dropDuplicates {α : Type} [DecidableEq α] (l : List α) :
    (dropDuplicates l).Nodup :=
  nodup_dedupAux l []

/-- C7.  The neighborhood roll-up produces one row per distinct
neighborhood (the key column is duplicate-free and every input
neighborhood appears), each metric column is reduced by the median of
the group's non-missing values, and `n_schools` is the distinct count of
school identifiers in the group.  On the spec's example — metric values
10, missing, 30 in one neighborhood — the aggregate is 20. -/
theorem c7_neighborhood_rollup (rows : List CleanRow) :
    ((dfNeigh rows).map fun g => g.pri_neigh).Nodup ∧
    (∀ r ∈ rows, ∃ g ∈ dfNeigh rows, g.pri_neigh = r.pri_neigh) ∧
    (∀ g ∈ dfNeigh rows,
      g.pctELA = median ((rows.filter fun r =>
        r.pri_neigh = g.pri_neigh).filterMap fun r => r.pctELA) ∧
      g.unemployment_percentage = median ((rows.filter fun r =>
        r.pri_neigh = g.pri_neigh).filterMap fun r =>
          r.unemployment_percentage) ∧
      g.n_schools = (dropDuplicates ((rows.filter fun r =>
        r.pri_neigh = g.pri_neigh).map fun r => r.rcdts)).length) ∧
    ((dfNeigh
        [⟨"N", "a", some 10, none, none, none, none⟩,
         ⟨"N", "b", none, none, none, none, none⟩,
         ⟨"N", "c", some 30, none, none, none, none⟩]).map
      (fun g => g.pctELA)) = [some 20] := by
  refine ⟨?_, ?_, ?_, ?_⟩
  · have hmap : ((dfNeigh rows).map fun g => g.pri_neigh)
        = dropDuplicates (rows.map fun r => r.pri_neigh) := by
      rw [dfNeigh, List.map_map]
      exact List.map_id _
    rw [hmap]
    exact nodup_dropDuplicates _
  · intro r hr
    have hkey : r.pri_neigh ∈ dropDuplicates (rows.map fun s => s.pri_neigh) := by
      rw [mem_dropDuplicates]
      exact List.mem_map_of_mem _ hr
    exact ⟨_, List.mem_map_of_mem _ hkey, rfl⟩
  · intro g hg
    rcases List.mem_map.mp hg with ⟨key, _, rfl⟩
    exact ⟨rfl, rfl, rfl⟩
  · norm_num [dfNeigh, dropDuplicates, dedupAux, median, sortQ, insertSorted,
      List.filterMap_cons, List.foldr_cons, List.foldr_nil]
    intro h
    simp at h

/-- C7, witness: for a two-neighborhood table the roll-up instantiates
the median/count clauses at a concrete group. -/
theorem c7_neighborhood_rollup_witness :
    ∃ g ∈ dfNeigh
        [⟨"N", "a", some 10, none, none, some 4, none⟩,
         ⟨"M", "b", some 50, none, none, none, none⟩],
      g.pri_neigh
        = (⟨"N", "a", some 10, none, none, some 4, none⟩ : CleanRow).pri_neigh := by
  exact (c7_neighborhood_rollup
    [⟨"N", "a", some 10, none, none, some 4, none⟩,
     ⟨"M", "b", some 50, none, none, none, none⟩]).2.1
    ⟨"N", "a", some 10, none, none, some 4, none⟩ (by simp)

theorem columnMapM_isSome {α β : Type} (f : α → Option β) (l : List α)
    (h : ∀ a ∈ l, (f a).isSome = true) :
    ∃ out, columnMapM f l = some out ∧
      ∀ b ∈ out, ∃ a ∈ l, f a = some b := by
  induction l with
  | nil => exact ⟨[], rfl, by simp⟩
  | cons a t ih =>
    obtain ⟨out, hout, hmem⟩ :=
      ih fun x hx => h x (List.mem_cons_of_mem _ hx)
    obtain ⟨b, hb⟩ :=
      Option.isSome_iff_exists.mp (h a (List.mem_cons_self _ _))
    refine ⟨b :: out, ?_, ?_⟩
    · rw [columnMapM, hb, hout]
    · intro x hx
      rcases List.mem_cons.mp hx with rfl | hx
      · exact ⟨a, List.mem_cons_self _ _, hb⟩
      · obtain ⟨a2, ha2, hfa2⟩ := hmem x hx
        exact ⟨a2, List.mem_cons_of_mem _ ha2, hfa2⟩

/-- C10.  Every zip code in the allow-list has an entry in the
zip-to-neighborhood dictionary, so on any source table whose zip
derivation succeeds, the neighborhood assignment after the allow-list
filter never raises, every resulting record carries a dictionary
neighborhood name, and the "Unknown" fallback never appears. -/
theorem c10_allowlist_neighborhood (src : List EconSrcRow)
    (mids : List EconMidRow) (hmids : columnMapM econMid src = some mids) :
    (∀ z ∈ ALL_ZIP_CODES,
      (zip_neighbor_dict.lookup (toString z)).isSome = true) ∧
    ∃ out, dataEcon src = some out ∧
      ∀ r ∈ out, r.neighborhood ≠ "Unknown" ∧
        r.neighborhood ∈ zip_neighbor_dict.map Prod.snd := by
  have hkey : ∀ z ∈ ALL_ZIP_CODES,
      neighborhoodOf z ≠ "Unknown" ∧
        neighborhoodOf z ∈ zip_neighbor_dict.map Prod.snd ∧
        (zip_neighbor_dict.lookup (toString z)).isSome = true := by decide
  refine ⟨fun z hz => (hkey z hz).2.2, ?_⟩
  have hsome : ∀ m ∈ mids.filter fun m => zipAllowed m.zip_code,
      (econFinalize m).isSome = true := by
    intro m hm
    rw [List.mem_filter] at hm
    cases hz : m.zip_code with
    | none =>
      rw [hz] at hm
      simp [zipAllowed] at hm
    | some z => simp [econFinalize, hz]
  obtain ⟨out, hout, hmem⟩ := columnMapM_isSome econFinalize _ hsome
  refine ⟨out, ?_, ?_⟩
  · rw [dataEcon, hmids]
    exact hout
  · intro r hr
    obtain ⟨m, hmf, hfin⟩ := hmem r hr
    rw [List.mem_filter] at hmf
    obtain ⟨z, hzc, hzin⟩ : ∃ z, m.zip_code = some z ∧ z ∈ ALL_ZIP_CODES := by
      cases hzc : m.zip_code with
      | none =>
        rw [hzc] at hmf
        simp [zipAllowed] at hmf
      | some z =>
        rw [hzc] at hmf
        refine ⟨z, rfl, ?_⟩
        simpa [zipAllowed] using hmf.2
    rw [econFinalize, hzc] at hfin
    simp only [Option.map_some', Option.some.injEq] at hfin
    subst hfin
    exact ⟨(hkey z hzin).1, (hkey z hzin).2.1⟩

/-- C10, witness: one source row for zip 60621 (with placeholder "(X)"
estimates) flows through; the resulting record is labelled from the
dictionary and is not "Unknown". -/
theorem c10_allowlist_neighborhood_witness :
    ∃ out,
      dataEcon [⟨"8600000US60621", "ZCTA5 60621", "(X)", "(X)", "(X)"⟩]
        = some out ∧
      ∀ r ∈ out, r.neighborhood ≠ "Unknown" ∧
        r.neighborhood ∈ zip_neighbor_dict.map Prod.snd := by
  exact (c10_allowlist_neighborhood
    [⟨"8600000US60621", "ZCTA5 60621", "(X)", "(X)", "(X)"⟩]
    [⟨some 60621, PVal.na, PVal.na, PVal.na, PVal.na⟩] (by decide)).2

/-- C8.  The pipeline is a pure function of its four input tables: two
runs on equal inputs produce equal output tables, hence byte-identical
files under the (deterministic) CSV serialization. -/
theorem c8_pipeline_deterministic
    (e1 e2 : List EconSrcRow) (m1 m2 : List ReportCardRow)
    (s1 s2 : List ScienceRow) (d1 d2 : List DirRow)
    (he : e1 = e2) (hm : m1 = m2) (hs : s1 = s2) (hd : d1 = d2) :
    pipelineOutputs e1 m1 s1 d1 = pipelineOutputs e2 m2 s2 d2 := by
  subst he
  subst hm
  subst hs
  subst hd
  rfl

/-- C8, witness: two runs on the same concrete inputs give the same
outputs. -/
theorem c8_pipeline_deterministic_witness :
    pipelineOutputs
        [⟨"8600000US60621", "ZCTA5 60621", "(X)", "(X)", "(X)"⟩] [] [] []
      = pipelineOutputs
        [⟨"8600000US60621", "ZCTA5 60621", "(X)", "(X)", "(X)"⟩] [] [] [] :=
  c8_pipeline_deterministic _ _ _ _ _ _ _ _ rfl rfl rfl rfl

end GwcPipeline
